import Mathlib

/-!
Verification of the shopcarts service against its specification.

The development shallowly embeds the core logic of the repository:

* `service/models.py` — the `Shopcart` record, its `validate`, `create`,
  `update`, `delete` methods, `finalize_cart`, and
  `_build_filter_conditions`.
* `service/common/helpers.py` — `validate_stock_and_limits`,
  `update_or_create_cart_item`, `process_cart_updates`,
  `update_cart_item_helper`, `parse_operator_value`,
  `extract_item_filters`.

Python strings are modelled as lists of characters (`PyStr`); Python's
dynamically typed attribute values are modelled by `PyVal`; decimal
numbers (Python `float`/`Decimal` written with finitely many decimal
digits) are modelled exactly by `Dec`, a scaled integer `mant / 10^exp`.
The SQLAlchemy session/database is modelled as an explicit list of rows
threaded through the operations; raising an exception is modelled by
`Except`, and an operation that raises leaves the store unchanged exactly
when the source rolls back or never reaches `commit`.
-/

/-- Python strings, modelled as lists of characters. -/
abbrev PyStr := List Char

/-- Coerce a Lean string literal to the `PyStr` model. -/
def pys (s : String) : PyStr := s.data

/-- Exact decimal numbers: `mant / 10 ^ exp`.  This models Python
`float`/`Decimal` values that carry finitely many decimal digits (every
numeric literal appearing in requests).  Arithmetic is exact. -/
structure Dec where
  mant : Int
  exp : Nat
deriving DecidableEq

/-- The integer `n` as a decimal. -/
def Dec.ofInt (n : Int) : Dec := Dec.mk n 0

/-- Value-level less-than on decimals (cross multiplication). -/
def Dec.ltB (a b : Dec) : Bool := a.mant * 10 ^ b.exp < b.mant * 10 ^ a.exp

/-- Value-level less-or-equal on decimals. -/
def Dec.leB (a b : Dec) : Bool := a.mant * 10 ^ b.exp ≤ b.mant * 10 ^ a.exp

/-- Value-level equality on decimals (`2.50 = 2.5`). -/
def Dec.valEq (a b : Dec) : Bool := a.mant * 10 ^ b.exp = b.mant * 10 ^ a.exp

/-- Exact addition. -/
def Dec.add (a b : Dec) : Dec :=
  Dec.mk (a.mant * 10 ^ b.exp + b.mant * 10 ^ a.exp) (a.exp + b.exp)

/-- Exact multiplication. -/
def Dec.mul (a b : Dec) : Dec := Dec.mk (a.mant * b.mant) (a.exp + b.exp)

/-- Whether the decimal's value is zero (Python `x == 0.0`). -/
def Dec.isZero (a : Dec) : Bool := a.mant = 0

/-- Whether the value has at most two decimal digits.  This models
`Decimal(str(price)).as_tuple().exponent < -2` from `Shopcart.validate`:
the value `mant / 10^exp` has at most two decimal places iff
`mant * 100` is divisible by `10^exp`. -/
def Dec.twoDpOk (a : Dec) : Bool := a.mant * 100 % (10 : Int) ^ a.exp = 0

/-- A dynamically typed Python attribute value, as stored on a
`Shopcart` object before validation.  `vFloat` covers Python `float` and
`Decimal` (both accepted by the `price` type check); `vDateTime` is an
abstract timestamp. -/
inductive PyVal where
  | vNone
  | vInt (n : Int)
  | vFloat (d : Dec)
  | vStr (s : PyStr)
  | vDateTime (t : Int)
deriving DecidableEq

/-- Python `isinstance(v, int)`. -/
def PyVal.isInt : PyVal → Bool
  | PyVal.vInt _ => true
  | _ => false

/-- Python `isinstance(v, (float, int, Decimal))`. -/
def PyVal.isNum : PyVal → Bool
  | PyVal.vInt _ => true
  | PyVal.vFloat _ => true
  | _ => false

/-- Python `isinstance(v, str)`. -/
def PyVal.isStr : PyVal → Bool
  | PyVal.vStr _ => true
  | _ => false

/-- Python `isinstance(v, (datetime, type(None)))`. -/
def PyVal.isDateTimeOrNone : PyVal → Bool
  | PyVal.vDateTime _ => true
  | PyVal.vNone => true
  | _ => false

/-- Numeric value of an attribute known to be `int`/`float`/`Decimal`
(only consulted after the type check has passed). -/
def PyVal.numVal : PyVal → Dec
  | PyVal.vInt n => Dec.ofInt n
  | PyVal.vFloat d => d
  | _ => Dec.ofInt 0

/-- Integer value of an attribute known to be `int` (only consulted
after the type check has passed). -/
def PyVal.intVal : PyVal → Int
  | PyVal.vInt n => n
  | _ => 0

/-- One `Shopcart` row with dynamically typed attributes, as in
`service/models.py` (class `Shopcart`).  The two timestamp columns are
carried so that `validate`'s type checks on them are modelled. -/
structure Shopcart where
  user_id : PyVal
  item_id : PyVal
  description : PyVal
  quantity : PyVal
  price : PyVal
  created_at : PyVal
  last_updated : PyVal
deriving DecidableEq

/-- `Shopcart.validate` from `service/models.py` (lines 55-86): required
fields, type checks in source dictionary order, then the value
constraints on price and quantity.  Raising `ValueError` is modelled by
`Except.error` with the source's message. -/
def Shopcart.validate (s : Shopcart) : Except PyStr Unit :=
  if s.user_id = PyVal.vNone then Except.error (pys "user_id must not be null.")
  else if s.item_id = PyVal.vNone then Except.error (pys "item_id must not be null.")
  else if s.user_id.isInt = false then Except.error (pys "user_id must be of type int.")
  else if s.item_id.isInt = false then Except.error (pys "item_id must be of type int.")
  else if s.price.isNum = false then
    Except.error (pys "price must be of type (float, int, Decimal).")
  else if s.description.isStr = false then Except.error (pys "description must be of type str.")
  else if s.quantity.isInt = false then Except.error (pys "quantity must be of type int.")
  else if s.created_at.isDateTimeOrNone = false then
    Except.error (pys "created_at must be of type datetime.")
  else if s.last_updated.isDateTimeOrNone = false then
    Except.error (pys "last_updated must be of type datetime.")
  else if s.price.numVal.ltB (Dec.ofInt 0) then
    Except.error (pys "Price cannot be less than 0.")
  else if s.price.numVal.twoDpOk = false then
    Except.error (pys "Price cannot have more than 2 decimal places.")
  else if s.quantity.intVal ≤ 0 then Except.error (pys "Quantity must be greater than 0.")
  else Except.ok ()

/-- Whether two rows share the composite primary key `(user_id, item_id)`. -/
def Shopcart.sameKey (r s : Shopcart) : Bool :=
  r.user_id == s.user_id && r.item_id == s.item_id

/-- `Shopcart.create` (models.py lines 91-105): validate, then add the row
and commit.  The store is the explicit list of rows; a validation error
aborts before any change. -/
def Shopcart.create (s : Shopcart) (db : List Shopcart) : Except PyStr (List Shopcart) :=
  match s.validate with
  | Except.error e => Except.error e
  | Except.ok _ => Except.ok (db ++ [s])

/-- `Shopcart.update` (models.py lines 107-118): validate the mutated
object, then commit; the row with the same key now holds the new
attribute values. -/
def Shopcart.update (s : Shopcart) (db : List Shopcart) : Except PyStr (List Shopcart) :=
  match s.validate with
  | Except.error e => Except.error e
  | Except.ok _ => Except.ok (db.map fun r => if Shopcart.sameKey r s then s else r)

/-- The record invariant claimed by the spec: key fields are non-null
integers, the description is a string, the quantity is a strictly
positive integer, and the price is a non-negative number with at most
two decimal digits. -/
def GoodRecord (s : Shopcart) : Prop :=
  (∃ n, s.user_id = PyVal.vInt n) ∧ (∃ n, s.item_id = PyVal.vInt n) ∧
  (∃ d, s.description = PyVal.vStr d) ∧
  (∃ q, s.quantity = PyVal.vInt q ∧ 0 < q) ∧
  s.price.isNum = true ∧ (Dec.ofInt 0).leB s.price.numVal = true ∧
  s.price.numVal.twoDpOk = true

/-- A persisted, well-typed row, as every row that passed `validate`
is: integer keys, string description, integer quantity, decimal price.
The DB-managed timestamp columns are carried as abstract integers (they
take no part in the cart operations below, only in filtering). -/
structure Item where
  user_id : Int
  item_id : Int
  description : PyStr
  quantity : Int
  price : Dec
  created_at : Int
  last_updated : Int
deriving DecidableEq

/-- `Shopcart.validate` specialised to a well-typed row: the null and
type checks all pass, leaving the three value constraints
(models.py lines 78-86). -/
def Item.validate (i : Item) : Except PyStr Unit :=
  if i.price.ltB (Dec.ofInt 0) then Except.error (pys "Price cannot be less than 0.")
  else if i.price.twoDpOk = false then
    Except.error (pys "Price cannot have more than 2 decimal places.")
  else if i.quantity ≤ 0 then Except.error (pys "Quantity must be greater than 0.")
  else Except.ok ()

/-- `Shopcart.find` (models.py lines 187-203): lookup by the composite
primary key, at most one row. -/
def findItem (db : List Item) (uid iid : Int) : Option Item :=
  db.find? fun r => r.user_id == uid && r.item_id == iid

/-- `Shopcart.find_by_user_id` (models.py lines 205-209). -/
def find_by_user_id (db : List Item) (uid : Int) : List Item :=
  db.filter fun r => r.user_id == uid

/-- `Shopcart.create` on a well-typed row: validate, then add and commit. -/
def createItem (i : Item) (db : List Item) : Except PyStr (List Item) :=
  match i.validate with
  | Except.error e => Except.error e
  | Except.ok _ => Except.ok (db ++ [i])

/-- `Shopcart.update` on a well-typed row: validate the mutated object,
then commit it in place of the row with the same key. -/
def updateItem (i : Item) (db : List Item) : Except PyStr (List Item) :=
  match i.validate with
  | Except.error e => Except.error e
  | Except.ok _ =>
    Except.ok (db.map fun r => if r.user_id == i.user_id && r.item_id == i.item_id then i else r)

/-- `Shopcart.delete` (models.py lines 120-129): physically remove the
row with this key. -/
def deleteItem (i : Item) (db : List Item) : List Item :=
  db.filter fun r => !(r.user_id == i.user_id && r.item_id == i.item_id)

/-- The total computed by `Shopcart.finalize_cart` (models.py lines
379-382): `total_price += float(item.price) * item.quantity` starting
from `0.0`. -/
def cartTotal (items : List Item) : Dec :=
  items.foldl (fun acc it => acc.add (it.price.mul (Dec.ofInt it.quantity))) (Dec.ofInt 0)

/-- The checkout error message for an owner with no rows. -/
def errNoCart (uid : Int) : PyStr := pys ("No cart found for user " ++ toString uid)

/-- The checkout error message for a zero total. -/
def errEmptyCart : PyStr := pys "Cart is empty. Nothing to checkout."

/-- `Shopcart.finalize_cart` (models.py lines 372-391): fetch the
owner's rows, fail if there are none, compute the total, fail if it is
exactly zero, otherwise delete every fetched row and return the total
together with the resulting store. -/
def finalize_cart (uid : Int) (db : List Item) : Except PyStr (Dec × List Item) :=
  let items := find_by_user_id db uid
  if items.isEmpty then Except.error (errNoCart uid)
  else
    let total := cartTotal items
    if total.isZero then Except.error errEmptyCart
    else Except.ok (total, items.foldl (fun d it => deleteItem it d) db)

/-- `validate_stock_and_limits` (helpers.py lines 32-52), condition
`stock is not None and stock < 1`. -/
def stockBelowOne : Option Int → Bool
  | some s => s < 1
  | none => false

/-- `validate_stock_and_limits`, condition
`stock is not None and quantity > stock` (same shape for the purchase
limit). -/
def exceedsCeiling (q : Int) : Option Int → Bool
  | some c => c < q
  | none => false

/-- `validate_stock_and_limits` (helpers.py lines 32-52): `some msg`
models returning the 400 error response, `none` models returning
`None`. -/
def validate_stock_and_limits (quantity : Int) (stock purchase_limit : Option Int) :
    Option PyStr :=
  if stockBelowOne stock then some (pys "Product is out of stock")
  else if exceedsCeiling quantity stock then some (pys "Only limited units are available")
  else if exceedsCeiling quantity purchase_limit then
    some (pys "Cannot exceed purchase limit")
  else none

/-- The product payload handed to `update_or_create_cart_item`
(helpers.py lines 55-62): the validated request fields plus the optional
stock and purchase-limit ceilings from the product-info collaborator. -/
structure ProductData where
  product_id : Int
  quantity : Int
  name : PyStr
  price : Dec
  stock : Option Int
  purchase_limit : Option Int

/-- `update_or_create_cart_item` (helpers.py lines 55-85): increment the
quantity of an existing row after re-checking the ceilings, or create a
new row.  The Python function returns the owner's rows; the model
returns the whole resulting store (from which they are read). -/
def update_or_create_cart_item (db : List Item) (user_id : Int) (pd : ProductData) :
    Except PyStr (List Item) :=
  match findItem db user_id pd.product_id with
  | some cart_item =>
    let new_quantity := cart_item.quantity + pd.quantity
    match validate_stock_and_limits new_quantity pd.stock pd.purchase_limit with
    | some e => Except.error e
    | none =>
      updateItem
        (Item.mk cart_item.user_id cart_item.item_id cart_item.description new_quantity
          cart_item.price cart_item.created_at cart_item.last_updated) db
  | none =>
    createItem (Item.mk user_id pd.product_id pd.name pd.quantity pd.price 0 0) db

/-- The `LookupError` message of `update_cart_item_helper`. -/
def errItemNotFound (uid iid : Int) : PyStr :=
  pys ("Item " ++ toString iid ++ " not found in user " ++ toString uid ++ "'s cart")

/-- `update_cart_item_helper` (helpers.py lines 112-123): missing item
raises `LookupError`; quantity `0` deletes the row; otherwise the row's
quantity is updated (re-validated by `Shopcart.update`). -/
def update_cart_item_helper (db : List Item) (user_id item_id quantity : Int) :
    Except PyStr (List Item) :=
  match findItem db user_id item_id with
  | none => Except.error (errItemNotFound user_id item_id)
  | some cart_item =>
    if quantity = 0 then Except.ok (deleteItem cart_item db)
    else
      updateItem
        (Item.mk cart_item.user_id cart_item.item_id cart_item.description quantity
          cart_item.price cart_item.created_at cart_item.last_updated) db

/-- A dynamically typed JSON scalar in a bulk-update payload entry. -/
inductive PyLit where
  | int (n : Int)
  | str (s : PyStr)
deriving DecidableEq

/-- One entry of the `items` list of a bulk cart update; `none` models a
missing key (Python `KeyError`). -/
structure RawItem where
  item_id : Option PyLit
  quantity : Option PyLit
deriving DecidableEq

/-- Digit-string parsing used by the model of Python `int(...)`. -/
def digitsToNat : PyStr → Option Nat
  | [] => none
  | s =>
    if s.all Char.isDigit then
      some (s.foldl (fun acc c => acc * 10 + c.toNat - '0'.toNat) 0)
    else none

/-- Python `int(str)` on the decimal-literal core: optional sign then
digits. -/
def pyIntOfStr : PyStr → Option Int
  | '-' :: t => (digitsToNat t).map fun n => -(n : Int)
  | '+' :: t => (digitsToNat t).map fun n => (n : Int)
  | t => (digitsToNat t).map fun n => (n : Int)

/-- Python `int(item["k"])` on a payload value: a missing key raises
`KeyError`, a non-numeric string raises `ValueError`; both are caught by
`process_cart_updates` and re-raised as `ValueError("Invalid input: ...")`. -/
def pyIntCoerce : Option PyLit → Except PyStr Int
  | none => Except.error (pys "Invalid input: missing key")
  | some (PyLit.int n) => Except.ok n
  | some (PyLit.str s) =>
    match pyIntOfStr s with
    | some n => Except.ok n
    | none => Except.error (pys "Invalid input: invalid literal for int()")

/-- The `int(item["item_id"])` / `int(item["quantity"])` step of
`process_cart_updates` (helpers.py lines 99-103). -/
def parseRawItem (it : RawItem) : Except PyStr (Int × Int) :=
  match pyIntCoerce it.item_id with
  | Except.error e => Except.error e
  | Except.ok iid =>
    match pyIntCoerce it.quantity with
    | Except.error e => Except.error e
    | Except.ok q => Except.ok (iid, q)

/-- `process_cart_updates` (helpers.py lines 96-109): the entries are
processed sequentially, each committed by `update_cart_item_helper`
before the next is examined.  The result is the store after the last
committed entry, together with the raised error, if any. -/
def process_cart_updates (db : List Item) (user_id : Int) :
    List RawItem → List Item × Option PyStr
  | [] => (db, none)
  | it :: rest =>
    match parseRawItem it with
    | Except.error e => (db, some e)
    | Except.ok (item_id, quantity) =>
      if quantity < 0 then (db, some (pys "Quantity cannot be negative"))
      else
        match update_cart_item_helper db user_id item_id quantity with
        | Except.error e => (db, some e)
        | Except.ok db1 => process_cart_updates db1 user_id rest

/-- `parse_operator_value` (helpers.py lines 181-203): strings without
the leading `~` marker mean equality; otherwise the string is split on
`~`, needs at least three segments, the operator token is lower-cased
and must be one of `lt`, `lte`, `gt`, `gte`, and the remaining segments
are rejoined with `~` as the operand. -/
def parse_operator_value (value_string : PyStr) : Except PyStr (PyStr × PyStr) :=
  if value_string.head? ≠ some '~' then Except.ok (pys "eq", value_string)
  else
    let parts := value_string.splitOn '~'
    if parts.length < 3 then
      Except.error (pys "Invalid operator format: " ++ value_string)
    else
      let op := parts[1]!.map Char.toLower
      let value := List.intercalate [ '~' ] (parts.drop 2)
      if op = pys "lt" ∨ op = pys "lte" ∨ op = pys "gt" ∨ op = pys "gte" then
        Except.ok (op, value)
      else Except.error (pys "Unsupported operator: " ++ op)

/-- A normalized filter value: a single operand or a list of operands
(kept as raw strings, coercion is the predicate builder's job). -/
inductive FVal where
  | s (v : PyStr)
  | l (vs : List PyStr)
deriving DecidableEq

/-- One normalized filter: `{"operator": ..., "value": ...}`. -/
structure QFilter where
  operator : PyStr
  value : FVal
deriving DecidableEq

/-- The request's query parameters, as an association list, with
Werkzeug's first-value lookup. -/
def getArg (request_args : List (PyStr × PyStr)) (k : PyStr) : Option PyStr :=
  (request_args.find? fun kv => kv.1 == k).map fun kv => kv.2

/-- Lookup in the produced filter mapping. -/
def getFilter (filters : List (PyStr × QFilter)) (f : PyStr) : Option QFilter :=
  (filters.find? fun kv => kv.1 == f).map fun kv => kv.2

/-- The allow-list of filterable fields (helpers.py lines 209-217). -/
def filter_fields : List PyStr :=
  [pys "user_id", pys "quantity", pys "price", pys "created_at",
   pys "last_updated", pys "description", pys "item_id"]

/-- The per-field loop of `extract_item_filters` (helpers.py lines
220-235): a present value containing a comma becomes an `in` filter over
the comma-split values; otherwise the value goes through
`parse_operator_value`, whose error is re-raised naming the field. -/
def extractFieldsLoop (request_args : List (PyStr × PyStr)) :
    List PyStr → Except PyStr (List (PyStr × QFilter))
  | [] => Except.ok []
  | field :: rest =>
    match getArg request_args field with
    | none => extractFieldsLoop request_args rest
    | some value_string =>
      if ',' ∈ value_string then
        match extractFieldsLoop request_args rest with
        | Except.error e => Except.error e
        | Except.ok tail =>
          Except.ok ((field, QFilter.mk (pys "in") (FVal.l (value_string.splitOn ','))) :: tail)
      else
        match parse_operator_value value_string with
        | Except.error e =>
          Except.error (pys "Error parsing filter for " ++ field ++ pys ": " ++ e)
        | Except.ok (op, v) =>
          match extractFieldsLoop request_args rest with
          | Except.error e => Except.error e
          | Except.ok tail => Except.ok ((field, QFilter.mk op (FVal.s v)) :: tail)

/-- `extract_item_filters` (helpers.py lines 206-235). -/
def extract_item_filters (request_args : List (PyStr × PyStr)) :
    Except PyStr (List (PyStr × QFilter)) :=
  extractFieldsLoop request_args filter_fields

/-- Python `str.strip()`: drop surrounding whitespace. -/
def trimStr (s : PyStr) : PyStr :=
  ((s.dropWhile Char.isWhitespace).reverse.dropWhile Char.isWhitespace).reverse

/-- The range-format error of the full Filter Extractor (message as
asserted by `tests/test_query.py`). -/
def errRangeFormat (field : PyStr) : PyStr :=
  pys "Invalid range format for " ++ field ++ pys "_range: expected start,end"

/-- The conflict error between the two price-filter syntaxes (message as
asserted by `tests/test_query.py`). -/
def errPriceConflict : PyStr :=
  pys "Cannot use both 'price' or 'price_range' and 'min-price'/'max-price'"

/-- Modelled from the spec: the per-field loop of the full Filter
Extractor of spec section 4.2, whose `F_range` and trimmed-list handling
is absent from the `extract_item_filters` revision under `src/` (only
`tests/test_query.py` exercises it).  Per field: an `F_range` parameter
is split on comma and must have exactly two parts, kept as raw strings;
else a comma-containing `F` value is split and trimmed into an `in`
filter; else a present `F` value is delegated to the operator parser. -/
def specFieldsLoop (request_args : List (PyStr × PyStr)) :
    List PyStr → Except PyStr (List (PyStr × QFilter))
  | [] => Except.ok []
  | field :: rest =>
    match getArg request_args (field ++ pys "_range") with
    | some value_string =>
      let parts := value_string.splitOn ','
      if parts.length ≠ 2 then Except.error (errRangeFormat field)
      else
        match specFieldsLoop request_args rest with
        | Except.error e => Except.error e
        | Except.ok tail =>
          Except.ok ((field, QFilter.mk (pys "range") (FVal.l parts)) :: tail)
    | none =>
      match getArg request_args field with
      | none => specFieldsLoop request_args rest
      | some value_string =>
        if ',' ∈ value_string then
          match specFieldsLoop request_args rest with
          | Except.error e => Except.error e
          | Except.ok tail =>
            Except.ok
              ((field,
                QFilter.mk (pys "in") (FVal.l ((value_string.splitOn ',').map trimStr))) :: tail)
        else
          match parse_operator_value value_string with
          | Except.error e =>
            Except.error (pys "Error parsing filter for " ++ field ++ pys ": " ++ e)
          | Except.ok (op, v) =>
            match specFieldsLoop request_args rest with
            | Except.error e => Except.error e
            | Except.ok tail => Except.ok ((field, QFilter.mk op (FVal.s v)) :: tail)

/-- Modelled from the spec: the mutual-exclusion test of spec section
4.2 — a price filter supplied through `price` or `price_range` together
with either legacy alias `min-price`/`max-price`, detected from
parameter presence alone. -/
def conflictingPriceParams (request_args : List (PyStr × PyStr)) : Bool :=
  ((getArg request_args (pys "price")).isSome
      || (getArg request_args (pys "price_range")).isSome)
    && ((getArg request_args (pys "min-price")).isSome
      || (getArg request_args (pys "max-price")).isSome)

/-- Modelled from the spec: the full Filter Extractor of spec section
4.2 (absent from the revision under `src/`, exercised by
`tests/test_query.py`).  A price filter supplied through `price` or
`price_range` together with either legacy alias `min-price`/`max-price`
is a conflict; otherwise the per-field loop runs and the dedicated
price-bounds pass turns the aliases into a `range`, `gte` or `lte`
filter on `price`. -/
def extract_item_filters_spec (request_args : List (PyStr × PyStr)) :
    Except PyStr (List (PyStr × QFilter)) :=
  if conflictingPriceParams request_args then
    Except.error errPriceConflict
  else
    match specFieldsLoop request_args filter_fields with
    | Except.error e => Except.error e
    | Except.ok base =>
      match getArg request_args (pys "min-price"), getArg request_args (pys "max-price") with
      | some lo, some hi =>
        Except.ok (base ++ [(pys "price", QFilter.mk (pys "range") (FVal.l [lo, hi]))])
      | some lo, none =>
        Except.ok (base ++ [(pys "price", QFilter.mk (pys "gte") (FVal.s lo))])
      | none, some hi =>
        Except.ok (base ++ [(pys "price", QFilter.mk (pys "lte") (FVal.s hi))])
      | none, none => Except.ok base

/-- Python `float(str)` on an unsigned decimal literal
`digits[.digits]` (the forms reaching the type converters through query
parameters; exotic float syntax is outside the model). -/
def pyFloatAbs (s : PyStr) : Option Dec :=
  match s.splitOn '.' with
  | [w] => (digitsToNat w).map fun n => Dec.mk (n : Int) 0
  | [w, f] =>
    match digitsToNat w, digitsToNat f with
    | some a, some b => some (Dec.mk ((a : Int) * 10 ^ f.length + (b : Int)) f.length)
    | _, _ => none
  | _ => none

/-- Python `float(str)` with an optional sign. -/
def pyFloatOfStr : PyStr → Option Dec
  | '-' :: t => (pyFloatAbs t).map fun d => Dec.mk (-d.mant) d.exp
  | '+' :: t => pyFloatAbs t
  | t => pyFloatAbs t

/-- `datetime.fromisoformat` on the date-only form `YYYY-MM-DD`, mapped
to an integer whose order agrees with chronological order (the
time-of-day forms are outside the model). -/
def pyDateOfStr (s : PyStr) : Option Int :=
  match s.splitOn '-' with
  | [y, m, d] =>
    match digitsToNat y, digitsToNat m, digitsToNat d with
    | some yy, some mm, some dd =>
      if y.length = 4 ∧ m.length = 2 ∧ d.length = 2 ∧ 1 ≤ mm ∧ mm ≤ 12 ∧ 1 ≤ dd ∧ dd ≤ 31 then
        some ((yy : Int) * 10000 + (mm : Int) * 100 + (dd : Int))
      else none
    | _, _, _ => none
  | _ => none

/-- A type-coerced filter operand, as produced by the `type_converters`
table of `Shopcart._build_filter_conditions` (models.py lines 312-320):
integer fields, the decimal price, date-times, or an unconverted raw
string. -/
inductive Val where
  | i (n : Int)
  | d (x : Dec)
  | s (st : PyStr)
  | t (n : Int)
deriving DecidableEq

/-- Lexicographic strict order on strings (Python `str < str`). -/
def strLtB : PyStr → PyStr → Bool
  | [], [] => false
  | [], _ :: _ => true
  | _ :: _, [] => false
  | a :: as_, b :: bs => if a = b then strLtB as_ bs else a < b

/-- Python `>` between two same-typed coerced operands (the only
comparisons the converters can produce for one field). -/
def valGtB : Val → Val → Bool
  | Val.i a, Val.i b => b < a
  | Val.d a, Val.d b => b.ltB a
  | Val.s a, Val.s b => strLtB b a
  | Val.t a, Val.t b => b < a
  | _, _ => false

/-- Python `<=` between two same-typed coerced operands. -/
def valLeB : Val → Val → Bool
  | Val.i a, Val.i b => a ≤ b
  | Val.d a, Val.d b => a.leB b
  | Val.s a, Val.s b => !strLtB b a
  | Val.t a, Val.t b => a ≤ b
  | _, _ => false

/-- Python `==` between two same-typed coerced operands. -/
def valEqB : Val → Val → Bool
  | Val.i a, Val.i b => a = b
  | Val.d a, Val.d b => a.valEq b
  | Val.s a, Val.s b => a = b
  | Val.t a, Val.t b => a = b
  | _, _ => false

/-- The coercion-failure message of `_build_filter_conditions`
(models.py line 335). -/
def errInvalidValue (field : PyStr) (v : PyStr) : PyStr :=
  pys "Invalid value for " ++ field ++ pys ": " ++ v

/-- The `type_converters` dispatch of `_build_filter_conditions`
(models.py lines 312-335) on one raw string. -/
def type_convert (field : PyStr) (v : PyStr) : Except PyStr Val :=
  if field = pys "price" then
    match pyFloatOfStr v with
    | some x => Except.ok (Val.d x)
    | none => Except.error (errInvalidValue field v)
  else if field = pys "quantity" ∨ field = pys "user_id" ∨ field = pys "item_id" then
    match pyIntOfStr v with
    | some n => Except.ok (Val.i n)
    | none => Except.error (errInvalidValue field v)
  else if field = pys "created_at" ∨ field = pys "last_updated" then
    match pyDateOfStr v with
    | some t => Except.ok (Val.t t)
    | none => Except.error (errInvalidValue field v)
  else Except.ok (Val.s v)

/-- A coerced filter value: a scalar or a list, mirroring the
`isinstance(value, list)` branching of `_build_filter_conditions`. -/
inductive CVal where
  | one (v : Val)
  | many (vs : List Val)
deriving DecidableEq

/-- Value coercion over a filter value (models.py lines 328-335):
lists are converted element-wise. -/
def convertValue (field : PyStr) : FVal → Except PyStr CVal
  | FVal.s raw =>
    match type_convert field raw with
    | Except.error e => Except.error e
    | Except.ok v => Except.ok (CVal.one v)
  | FVal.l raws =>
    match raws.mapM (type_convert field) with
    | Except.error e => Except.error e
    | Except.ok vs => Except.ok (CVal.many vs)

/-- One concrete comparison condition `model_attr <op> value` appended
to the conditions list by `_build_filter_conditions`. -/
structure Cond where
  field : PyStr
  op : PyStr
  value : CVal
deriving DecidableEq

/-- The range-order error of `_build_filter_conditions`
(models.py lines 357-360). -/
def errRangeOrder (field : PyStr) : PyStr :=
  pys "min value cannot be greater than max value in " ++ field ++ pys "_range"

/-- The `match operator` arm of `_build_filter_conditions` (models.py
lines 337-368) for one field's filter: coerce the value, then build the
comparison conditions; `range` checks `value[0] > value[1]` and expands
into the two inclusive bounds. -/
def buildConds (field : PyStr) (filt : QFilter) : Except PyStr (List Cond) :=
  match convertValue field filt.value with
  | Except.error e => Except.error e
  | Except.ok value =>
    if filt.operator = pys "eq" ∨ filt.operator = pys "lt" ∨ filt.operator = pys "lte"
        ∨ filt.operator = pys "gt" ∨ filt.operator = pys "gte" then
      Except.ok [Cond.mk field filt.operator value]
    else if filt.operator = pys "in" then
      match value with
      | CVal.many _ => Except.ok [Cond.mk field (pys "in") value]
      | CVal.one _ =>
        Except.error (pys "Invalid 'in' operator value for " ++ field ++ pys ": must be a list")
    else if filt.operator = pys "range" then
      match value with
      | CVal.many [a, b] =>
        if valGtB a b then Except.error (errRangeOrder field)
        else Except.ok [Cond.mk field (pys "gte") (CVal.one a), Cond.mk field (pys "lte") (CVal.one b)]
      | _ =>
        Except.error
          (pys "Invalid 'range' operator value for " ++ field ++ pys ": must be a list of two values")
    else Except.error (pys "Unsupported operator: " ++ filt.operator)

/-- `Shopcart._build_filter_conditions` (models.py lines 305-370): the
conditions of all filters, concatenated in filter order. -/
def build_filter_conditions : List (PyStr × QFilter) → Except PyStr (List Cond)
  | [] => Except.ok []
  | (field, filt) :: rest =>
    match buildConds field filt with
    | Except.error e => Except.error e
    | Except.ok cs =>
      match build_filter_conditions rest with
      | Except.error e => Except.error e
      | Except.ok rs => Except.ok (cs ++ rs)

/-- `getattr(cls, field)` on a row: the coerced value stored in the
named column. -/
def attrVal (x : Item) (field : PyStr) : Option Val :=
  if field = pys "user_id" then some (Val.i x.user_id)
  else if field = pys "item_id" then some (Val.i x.item_id)
  else if field = pys "quantity" then some (Val.i x.quantity)
  else if field = pys "price" then some (Val.d x.price)
  else if field = pys "description" then some (Val.s x.description)
  else if field = pys "created_at" then some (Val.t x.created_at)
  else if field = pys "last_updated" then some (Val.t x.last_updated)
  else none

/-- Evaluation of one condition against a row (the SQL semantics of the
comparison the condition denotes). -/
def evalCond (x : Item) (c : Cond) : Bool :=
  match attrVal x c.field with
  | none => false
  | some av =>
    if c.op = pys "eq" then
      match c.value with
      | CVal.one v => valEqB av v
      | CVal.many _ => false
    else if c.op = pys "lt" then
      match c.value with
      | CVal.one v => valGtB v av
      | CVal.many _ => false
    else if c.op = pys "lte" then
      match c.value with
      | CVal.one v => valLeB av v
      | CVal.many _ => false
    else if c.op = pys "gt" then
      match c.value with
      | CVal.one v => valGtB av v
      | CVal.many _ => false
    else if c.op = pys "gte" then
      match c.value with
      | CVal.one v => valLeB v av
      | CVal.many _ => false
    else if c.op = pys "in" then
      match c.value with
      | CVal.many vs => vs.any fun v => valEqB av v
      | CVal.one _ => false
    else false

/-- A row satisfies a conditions list iff it satisfies their
conjunction (`query.filter(*conditions)`). -/
def condsHold (x : Item) (conds : List Cond) : Bool := conds.all (evalCond x)

/-! ## Supporting lemmas -/

theorem PyVal.isInt_true {v : PyVal} (h : v.isInt = true) : ∃ n, v = PyVal.vInt n := by
  cases v <;> simp_all [PyVal.isInt]

theorem PyVal.isStr_true {v : PyVal} (h : v.isStr = true) : ∃ d, v = PyVal.vStr d := by
  cases v <;> simp_all [PyVal.isStr]

theorem validate_ok_good {s : Shopcart} (h : Shopcart.validate s = Except.ok ()) :
    GoodRecord s := by
  unfold Shopcart.validate at h
  by_cases h1 : s.user_id = PyVal.vNone
  · rw [if_pos h1] at h; exact absurd h (by simp)
  rw [if_neg h1] at h
  by_cases h2 : s.item_id = PyVal.vNone
  · rw [if_pos h2] at h; exact absurd h (by simp)
  rw [if_neg h2] at h
  by_cases h3 : s.user_id.isInt = false
  · rw [if_pos h3] at h; exact absurd h (by simp)
  rw [if_neg h3] at h
  by_cases h4 : s.item_id.isInt = false
  · rw [if_pos h4] at h; exact absurd h (by simp)
  rw [if_neg h4] at h
  by_cases h5 : s.price.isNum = false
  · rw [if_pos h5] at h; exact absurd h (by simp)
  rw [if_neg h5] at h
  by_cases h6 : s.description.isStr = false
  · rw [if_pos h6] at h; exact absurd h (by simp)
  rw [if_neg h6] at h
  by_cases h7 : s.quantity.isInt = false
  · rw [if_pos h7] at h; exact absurd h (by simp)
  rw [if_neg h7] at h
  by_cases h8 : s.created_at.isDateTimeOrNone = false
  · rw [if_pos h8] at h; exact absurd h (by simp)
  rw [if_neg h8] at h
  by_cases h9 : s.last_updated.isDateTimeOrNone = false
  · rw [if_pos h9] at h; exact absurd h (by simp)
  rw [if_neg h9] at h
  by_cases h10 : s.price.numVal.ltB (Dec.ofInt 0) = true
  · rw [if_pos h10] at h; exact absurd h (by simp)
  rw [if_neg h10] at h
  by_cases h11 : s.price.numVal.twoDpOk = false
  · rw [if_pos h11] at h; exact absurd h (by simp)
  rw [if_neg h11] at h
  by_cases h12 : s.quantity.intVal ≤ 0
  · rw [if_pos h12] at h; exact absurd h (by simp)
  obtain ⟨u, hu⟩ := PyVal.isInt_true (by simpa using h3)
  obtain ⟨i, hi⟩ := PyVal.isInt_true (by simpa using h4)
  obtain ⟨d, hd⟩ := PyVal.isStr_true (by simpa using h6)
  obtain ⟨q, hq⟩ := PyVal.isInt_true (by simpa using h7)
  refine ⟨⟨u, hu⟩, ⟨i, hi⟩, ⟨d, hd⟩, ⟨q, hq, ?_⟩, by simpa using h5, ?_, by simpa using h11⟩
  · rw [hq] at h12
    simp only [PyVal.intVal] at h12
    omega
  · simp only [Dec.ltB, Dec.ofInt, Dec.leB] at h10 ⊢
    simp only [Bool.not_eq_true, decide_eq_false_iff_not] at h10
    simp only [decide_eq_true_eq]
    omega

/-! ## C1 -/

/-- C1: every create or update of a cart line item runs `validate`
before committing, so a record reaching the store has non-null integer
keys, a string description, a strictly positive integer quantity, and a
non-negative price with at most two decimal digits; a validation
failure yields an error and neither operation commits, so the store
invariant is preserved by both operations. -/
theorem write_paths_validate (s : Shopcart) (db : List Shopcart) :
    (Shopcart.validate s = Except.ok () → GoodRecord s) ∧
    (∀ db2, Shopcart.create s db = Except.ok db2 →
      GoodRecord s ∧ db2 = db ++ [s] ∧
      ((∀ r ∈ db, GoodRecord r) → ∀ r ∈ db2, GoodRecord r)) ∧
    (∀ db2, Shopcart.update s db = Except.ok db2 →
      GoodRecord s ∧ ((∀ r ∈ db, GoodRecord r) → ∀ r ∈ db2, GoodRecord r)) ∧
    (Shopcart.validate s ≠ Except.ok () →
      (∃ e, Shopcart.create s db = Except.error e) ∧
      (∃ e, Shopcart.update s db = Except.error e)) := by
  refine ⟨fun h => validate_ok_good h, ?_, ?_, ?_⟩
  · intro db2 h
    unfold Shopcart.create at h
    cases hv : Shopcart.validate s with
    | error e => rw [hv] at h; exact absurd h (by simp)
    | ok u =>
      cases u
      rw [hv] at h
      have hgood := validate_ok_good hv
      have hdb : db2 = db ++ [s] := by
        simpa using h.symm
      refine ⟨hgood, hdb, ?_⟩
      intro hall r hr
      rw [hdb] at hr
      rcases List.mem_append.mp hr with hl | hrr
      · exact hall r hl
      · rw [List.mem_singleton.mp hrr]; exact hgood
  · intro db2 h
    unfold Shopcart.update at h
    cases hv : Shopcart.validate s with
    | error e => rw [hv] at h; exact absurd h (by simp)
    | ok u =>
      cases u
      rw [hv] at h
      have hgood := validate_ok_good hv
      have hdb : db2 = db.map fun r => if Shopcart.sameKey r s then s else r := by
        simpa using h.symm
      refine ⟨hgood, ?_⟩
      intro hall r hr
      rw [hdb] at hr
      obtain ⟨r0, hr0, hre⟩ := List.mem_map.mp hr
      by_cases hk : Shopcart.sameKey r0 s
      · rw [if_pos hk] at hre; rw [← hre]; exact hgood
      · rw [if_neg hk] at hre; rw [← hre]; exact hall r0 hr0
  · intro hne
    cases hv : Shopcart.validate s with
    | ok u => cases u; exact absurd hv hne
    | error e =>
      constructor
      · exact ⟨e, by unfold Shopcart.create; rw [hv]⟩
      · exact ⟨e, by unfold Shopcart.update; rw [hv]⟩

/-- A concrete fully valid row used by the C1 witness. -/
def c1Row : Shopcart :=
  Shopcart.mk (PyVal.vInt 1) (PyVal.vInt 2) (PyVal.vStr (pys "widget")) (PyVal.vInt 3)
    (PyVal.vFloat (Dec.mk 1050 2)) PyVal.vNone PyVal.vNone

/-- C1 witness: the theorem applied to a concrete valid row and the
empty store. -/
theorem write_paths_validate_witness :
    Shopcart.create c1Row [] = Except.ok ([] ++ [c1Row]) ∧ GoodRecord c1Row := by
  have hc : Shopcart.create c1Row [] = Except.ok ([] ++ [c1Row]) := rfl
  exact ⟨hc, ((write_paths_validate c1Row []).2.1 ([] ++ [c1Row]) hc).1⟩

/-! ## C2 -/

theorem foldl_delete_eq_filter (items db : List Item) :
    items.foldl (fun d it => deleteItem it d) db =
      db.filter fun x => items.all fun it => !(x.user_id == it.user_id && x.item_id == it.item_id) := by
  induction items generalizing db with
  | nil => simp
  | cons it its ih =>
    rw [List.foldl_cons, ih]
    unfold deleteItem
    rw [List.filter_filter]
    apply List.filter_congr
    intro x _
    simp [List.all_cons, Bool.and_comm]

theorem find_by_user_id_after_purge (db : List Item) (uid : Int) :
    find_by_user_id ((find_by_user_id db uid).foldl (fun d it => deleteItem it d) db) uid = [] := by
  rw [foldl_delete_eq_filter]
  unfold find_by_user_id
  rw [List.filter_eq_nil_iff]
  intro x hx
  rcases List.mem_filter.mp hx with ⟨hxdb, hall⟩
  intro huid
  have hxitems : x ∈ List.filter (fun r => r.user_id == uid) db :=
    List.mem_filter.mpr ⟨hxdb, huid⟩
  have := (List.all_eq_true.mp hall) x hxitems
  simp at this

/-- C2: checkout (`finalize_cart`) fails with the empty-cart error when
the owner has no line items, fails likewise when the computed total
`Σ (unit_price * quantity)` is exactly zero, and otherwise succeeds
returning exactly that total after deleting every fetched line item, so
the owner has zero records afterwards. -/
theorem finalize_cart_spec (uid : Int) (db : List Item) :
    (find_by_user_id db uid = [] → finalize_cart uid db = Except.error (errNoCart uid)) ∧
    (find_by_user_id db uid ≠ [] → (cartTotal (find_by_user_id db uid)).isZero = true →
      finalize_cart uid db = Except.error errEmptyCart) ∧
    (find_by_user_id db uid ≠ [] → (cartTotal (find_by_user_id db uid)).isZero = false →
      finalize_cart uid db =
        Except.ok (cartTotal (find_by_user_id db uid),
          (find_by_user_id db uid).foldl (fun d it => deleteItem it d) db) ∧
      find_by_user_id ((find_by_user_id db uid).foldl (fun d it => deleteItem it d) db) uid = []) := by
  refine ⟨?_, ?_, ?_⟩
  · intro h
    unfold finalize_cart
    rw [h]
    rfl
  · intro h hz
    unfold finalize_cart
    rw [if_neg (by simpa [List.isEmpty_iff] using h), if_pos hz]
  · intro h hz
    refine ⟨?_, find_by_user_id_after_purge db uid⟩
    unfold finalize_cart
    rw [if_neg (by simpa [List.isEmpty_iff] using h), if_neg (by simp [hz])]

/-- The two-line cart of the spec's checkout example:
price 10.00 with quantity 2 and price 5.50 with quantity 1. -/
def c2Db : List Item :=
  [Item.mk 7 1 (pys "a") 2 (Dec.mk 1000 2) 0 0, Item.mk 7 2 (pys "b") 1 (Dec.mk 550 2) 0 0]

/-- C2 witness: on the example cart the theorem yields the total, the
total's value is 25.50, the owner's records are gone afterwards, and
checkout of an owner with zero records errors. -/
theorem finalize_cart_spec_witness :
    finalize_cart 7 c2Db =
      Except.ok (cartTotal (find_by_user_id c2Db 7),
        (find_by_user_id c2Db 7).foldl (fun d it => deleteItem it d) c2Db) ∧
    find_by_user_id ((find_by_user_id c2Db 7).foldl (fun d it => deleteItem it d) c2Db) 7 = [] ∧
    Dec.valEq (cartTotal (find_by_user_id c2Db 7)) (Dec.mk 2550 2) = true ∧
    finalize_cart 7 ([] : List Item) = Except.error (errNoCart 7) := by
  have h := (finalize_cart_spec 7 c2Db).2.2 (by decide) (by decide)
  exact ⟨h.1, h.2, by decide, (finalize_cart_spec 7 ([] : List Item)).1 (by decide)⟩

theorem Item.validate_ok_of {i : Item} (hp : (Dec.ofInt 0).leB i.price = true)
    (hd : i.price.twoDpOk = true) (hq : 0 < i.quantity) :
    Item.validate i = Except.ok () := by
  unfold Item.validate
  have hlt : i.price.ltB (Dec.ofInt 0) = false := by
    simp only [Dec.leB, Dec.ofInt, decide_eq_true_eq] at hp
    simp only [Dec.ltB, Dec.ofInt, decide_eq_false_iff_not]
    omega
  rw [hlt]
  simp only [Bool.false_eq_true, if_false, hd]
  rw [if_neg (by simp), if_neg (by omega)]

theorem findItem_none_all {db : List Item} {uid pid : Int}
    (h : findItem db uid pid = none) :
    ∀ r ∈ db, (r.user_id == uid && r.item_id == pid) = false := by
  intro r hr
  have := List.find?_eq_none.mp h r hr
  simpa using this

theorem map_update_of_absent {db : List Item} {uid pid : Int} (i : Item)
    (hu : i.user_id = uid) (hp : i.item_id = pid)
    (h : findItem db uid pid = none) :
    (db.map fun r => if r.user_id == i.user_id && r.item_id == i.item_id then i else r) = db := by
  have : ∀ r ∈ db, (if r.user_id == i.user_id && r.item_id == i.item_id then i else r) = r := by
    intro r hr
    rw [if_neg]
    rw [hu, hp]
    simp [findItem_none_all h r hr]
  rw [List.map_congr_left this]
  simp

theorem filter_key_of_absent {db : List Item} {uid pid : Int}
    (h : findItem db uid pid = none) :
    (db.filter fun r => r.user_id == uid && r.item_id == pid) = [] := by
  rw [List.filter_eq_nil_iff]
  intro r hr
  simp [findItem_none_all h r hr]

theorem vsl_none_no_exceed {q : Int} {st pl : Option Int}
    (h : validate_stock_and_limits q st pl = none) :
    exceedsCeiling q st = false ∧ exceedsCeiling q pl = false := by
  unfold validate_stock_and_limits at h
  by_cases h1 : stockBelowOne st = true
  · rw [if_pos h1] at h; exact absurd h (by simp)
  rw [if_neg h1] at h
  by_cases h2 : exceedsCeiling q st = true
  · rw [if_pos h2] at h; exact absurd h (by simp)
  rw [if_neg h2] at h
  by_cases h3 : exceedsCeiling q pl = true
  · rw [if_pos h3] at h; exact absurd h (by simp)
  exact ⟨by simpa using h2, by simpa using h3⟩

/-! ## C7 and C8 -/

/-- C7: adding an item whose (owner, item) key already exists increments
the stored quantity: two adds of quantities q1 then q2 with no ceilings
leave a single record with quantity q1 + q2 and the price of the first
insert (the second request's price is ignored); and when the combined
quantity exceeds a supplied stock or purchase-limit ceiling the whole
add fails with an error, committing nothing. -/
theorem add_item_accumulates (db : List Item) (uid pid q1 q2 : Int)
    (nm nm2 : PyStr) (p p2 : Dec) (pd : ProductData) (item : Item) :
    (findItem db uid pid = none → 0 < q1 → 0 ≤ q2 →
      (Dec.ofInt 0).leB p = true → p.twoDpOk = true →
      update_or_create_cart_item db uid (ProductData.mk pid q1 nm p none none) =
        Except.ok (db ++ [Item.mk uid pid nm q1 p 0 0]) ∧
      update_or_create_cart_item (db ++ [Item.mk uid pid nm q1 p 0 0]) uid
          (ProductData.mk pid q2 nm2 p2 none none) =
        Except.ok (db ++ [Item.mk uid pid nm (q1 + q2) p 0 0]) ∧
      findItem (db ++ [Item.mk uid pid nm (q1 + q2) p 0 0]) uid pid =
        some (Item.mk uid pid nm (q1 + q2) p 0 0) ∧
      ((db ++ [Item.mk uid pid nm (q1 + q2) p 0 0]).filter
          fun r => r.user_id == uid && r.item_id == pid).length = 1) ∧
    (findItem db uid pd.product_id = some item →
      ((∃ s, pd.stock = some s ∧ s < item.quantity + pd.quantity) ∨
       (∃ l, pd.purchase_limit = some l ∧ l < item.quantity + pd.quantity)) →
      ∃ e, update_or_create_cart_item db uid pd = Except.error e) := by
  constructor
  · intro hnone hq1 hq2 hple hpdp
    have hv1 : Item.validate (Item.mk uid pid nm q1 p 0 0) = Except.ok () :=
      Item.validate_ok_of hple hpdp hq1
    have hv2 : Item.validate (Item.mk uid pid nm (q1 + q2) p 0 0) = Except.ok () :=
      Item.validate_ok_of hple hpdp (by show 0 < q1 + q2; omega)
    have hfind1 : findItem (db ++ [Item.mk uid pid nm q1 p 0 0]) uid pid =
        some (Item.mk uid pid nm q1 p 0 0) := by
      unfold findItem at hnone ⊢
      rw [List.find?_append, hnone]
      simp
    refine ⟨?_, ?_, ?_, ?_⟩
    · unfold update_or_create_cart_item
      rw [hnone]
      unfold createItem
      rw [hv1]
    · unfold update_or_create_cart_item
      rw [hfind1]
      show updateItem (Item.mk uid pid nm (q1 + q2) p 0 0) _ = _
      unfold updateItem
      rw [hv2]
      rw [List.map_append, map_update_of_absent _ rfl rfl hnone]
      simp
    · unfold findItem
      rw [List.find?_append]
      unfold findItem at hnone
      rw [hnone]
      simp
    · rw [List.filter_append, filter_key_of_absent hnone]
      simp
  · intro hfind hex
    cases hv : validate_stock_and_limits (item.quantity + pd.quantity) pd.stock pd.purchase_limit with
    | some e =>
      refine ⟨e, ?_⟩
      simp only [update_or_create_cart_item, hfind, hv]
    | none =>
      exfalso
      obtain ⟨hst, hpl⟩ := vsl_none_no_exceed hv
      rcases hex with ⟨s, hs, hlt⟩ | ⟨l, hl, hlt⟩
      · rw [hs] at hst; simp [exceedsCeiling] at hst; omega
      · rw [hl] at hpl; simp [exceedsCeiling] at hpl; omega

theorem Item.validate_ok_quantity {i : Item} (h : Item.validate i = Except.ok ()) :
    0 < i.quantity := by
  unfold Item.validate at h
  by_cases h1 : i.price.ltB (Dec.ofInt 0) = true
  · rw [if_pos h1] at h; exact absurd h (by simp)
  rw [if_neg h1] at h
  by_cases h2 : i.price.twoDpOk = false
  · rw [if_pos h2] at h; exact absurd h (by simp)
  rw [if_neg h2] at h
  by_cases h3 : i.quantity ≤ 0
  · rw [if_pos h3] at h; exact absurd h (by simp)
  omega

/-- C8: on the single-item update path, updating a key that is not in
the owner's cart fails with the item-not-found error; setting an
existing item's quantity to exactly 0 deletes the row, after which
`find` returns none; and no update can introduce a non-positive
quantity into a store whose rows all have positive quantity. -/
theorem update_item_zero_and_missing (db : List Item) (uid iid : Int) :
    (findItem db uid iid = none → ∀ q,
      update_cart_item_helper db uid iid q = Except.error (errItemNotFound uid iid)) ∧
    (∀ item, findItem db uid iid = some item →
      update_cart_item_helper db uid iid 0 = Except.ok (deleteItem item db) ∧
      findItem (deleteItem item db) uid iid = none) ∧
    (∀ q db2, update_cart_item_helper db uid iid q = Except.ok db2 →
      (∀ r ∈ db, 0 < r.quantity) → ∀ r ∈ db2, 0 < r.quantity) := by
  refine ⟨?_, ?_, ?_⟩
  · intro hnone q
    simp only [update_cart_item_helper, hnone]
  · intro item hfind
    have hkey : (item.user_id == uid && item.item_id == iid) = true := by
      have := List.find?_some hfind
      simpa using this
    constructor
    · simp only [update_cart_item_helper, hfind, if_pos]
    · unfold findItem deleteItem
      rw [List.find?_eq_none]
      intro r hr
      rcases List.mem_filter.mp hr with ⟨_, hcond⟩
      intro habs
      simp only [Bool.and_eq_true, beq_iff_eq] at hkey habs
      simp [habs.1, habs.2, hkey.1, hkey.2] at hcond
  · intro q db2 h hall
    cases hfind : findItem db uid iid with
    | none =>
      simp only [update_cart_item_helper, hfind] at h
      exact absurd h (by simp)
    | some item =>
      simp only [update_cart_item_helper, hfind] at h
      by_cases hq : q = 0
      · rw [if_pos hq] at h
        have hdb2 : db2 = deleteItem item db := by simpa using h.symm
        intro r hr
        rw [hdb2] at hr
        exact hall r (List.mem_of_mem_filter hr)
      · rw [if_neg hq] at h
        unfold updateItem at h
        cases hv : Item.validate
            (Item.mk item.user_id item.item_id item.description q item.price item.created_at
              item.last_updated) with
        | error e => rw [hv] at h; exact absurd h (by simp)
        | ok u =>
          cases u
          rw [hv] at h
          have hqpos : 0 < q := by
            have := Item.validate_ok_quantity hv
            simpa using this
          have hdb2 : db2 = db.map fun r =>
              if r.user_id == item.user_id && r.item_id == item.item_id then
                Item.mk item.user_id item.item_id item.description q item.price item.created_at
                  item.last_updated
              else r := by
            simpa using h.symm
          intro r hr
          rw [hdb2] at hr
          obtain ⟨r0, hr0, hre⟩ := List.mem_map.mp hr
          by_cases hk : (r0.user_id == item.user_id && r0.item_id == item.item_id) = true
          · rw [if_pos hk] at hre
            rw [← hre]
            simpa using hqpos
          · rw [if_neg hk] at hre
            rw [← hre]
            exact hall r0 hr0

/-- The pre-existing row used by the C7 and C8 witnesses. -/
def c8Item : Item := Item.mk 1 2 (pys "widget") 5 (Dec.mk 100 2) 0 0

/-- The one-row store used by the C8 witness. -/
def c8Db : List Item := [c8Item]

/-- C7 witness: concrete double add (2 then 3 of item 5 at 19.99)
through the theorem, and a concrete add blocked by a stock ceiling. -/
theorem add_item_accumulates_witness :
    update_or_create_cart_item [] 1 (ProductData.mk 5 2 (pys "a") (Dec.mk 1999 2) none none) =
      Except.ok ([] ++ [Item.mk 1 5 (pys "a") 2 (Dec.mk 1999 2) 0 0]) ∧
    update_or_create_cart_item ([] ++ [Item.mk 1 5 (pys "a") 2 (Dec.mk 1999 2) 0 0]) 1
        (ProductData.mk 5 3 (pys "b") (Dec.mk 1 0) none none) =
      Except.ok ([] ++ [Item.mk 1 5 (pys "a") (2 + 3) (Dec.mk 1999 2) 0 0]) ∧
    update_or_create_cart_item [Item.mk 1 5 (pys "a") 2 (Dec.mk 1999 2) 0 0] 1
        (ProductData.mk 5 3 (pys "b") (Dec.mk 1 0) (some 4) none) =
      Except.error (pys "Only limited units are available") := by
  have h := (add_item_accumulates [] 1 5 2 3 (pys "a") (pys "b") (Dec.mk 1999 2) (Dec.mk 1 0)
      (ProductData.mk 5 3 (pys "b") (Dec.mk 1 0) (some 4) none)
      (Item.mk 1 5 (pys "a") 2 (Dec.mk 1999 2) 0 0)).1
      rfl (by omega) (by omega) (by decide) (by decide)
  exact ⟨h.1, h.2.1, by rfl⟩

/-- C8 witness: the theorem applied to a concrete one-row store: a
zero-quantity update deletes the row, and an update of a missing item
errors. -/
theorem update_item_zero_and_missing_witness :
    update_cart_item_helper c8Db 1 2 0 = Except.ok (deleteItem c8Item c8Db) ∧
    findItem (deleteItem c8Item c8Db) 1 2 = none ∧
    update_cart_item_helper c8Db 1 9 3 = Except.error (errItemNotFound 1 9) := by
  have h := (update_item_zero_and_missing c8Db 1 2).2.1 c8Item rfl
  exact ⟨h.1, h.2, (update_item_zero_and_missing c8Db 1 9).1 rfl 3⟩

/-- A cart with two rows for owner 1, used by the C5 counterexample. -/
def c5Db : List Item :=
  [Item.mk 1 1 (pys "a") 5 (Dec.mk 100 2) 0 0, Item.mk 1 2 (pys "b") 5 (Dec.mk 100 2) 0 0]

/-- A bulk-update payload whose first entry is valid and whose second
entry has a non-integer quantity. -/
def c5Items : List RawItem :=
  [RawItem.mk (some (PyLit.int 1)) (some (PyLit.int 7)),
   RawItem.mk (some (PyLit.int 2)) (some (PyLit.str (pys "x")))]

/-- C5 counterexample: a bulk cart update whose second entry is invalid
raises a validation error, yet the store is not left as it was before
the request — the first row has already been committed with its new
quantity 7. -/
theorem process_partial_mutation_cex :
    (process_cart_updates c5Db 1 c5Items).2.isSome = true ∧
    (process_cart_updates c5Db 1 c5Items).1 ≠ c5Db ∧
    findItem (process_cart_updates c5Db 1 c5Items).1 1 1 =
      some (Item.mk 1 1 (pys "a") 7 (Dec.mk 100 2) 0 0) := by decide

/-- C5 (amended): within one entry of a bulk cart update, parse and
validation errors are detected before that entry's write and abort the
remaining entries with the store as of the last committed entry; but
entries are committed one at a time, so a failing later entry does not
roll back earlier ones. -/
theorem process_entry_fail_fast (db : List Item) (uid : Int) (it : RawItem)
    (rest : List RawItem) :
    (∀ e, parseRawItem it = Except.error e →
      process_cart_updates db uid (it :: rest) = (db, some e)) ∧
    (∀ iid q, parseRawItem it = Except.ok (iid, q) → q < 0 →
      process_cart_updates db uid (it :: rest) =
        (db, some (pys "Quantity cannot be negative"))) ∧
    (∀ iid q e, parseRawItem it = Except.ok (iid, q) → ¬ q < 0 →
      update_cart_item_helper db uid iid q = Except.error e →
      process_cart_updates db uid (it :: rest) = (db, some e)) ∧
    (∀ iid q db1, parseRawItem it = Except.ok (iid, q) → ¬ q < 0 →
      update_cart_item_helper db uid iid q = Except.ok db1 →
      process_cart_updates db uid (it :: rest) = process_cart_updates db1 uid rest) := by
  refine ⟨?_, ?_, ?_, ?_⟩
  · intro e he
    simp only [process_cart_updates, he]
  · intro iid q hp hq
    simp only [process_cart_updates, hp, if_pos hq]
  · intro iid q e hp hq hu
    simp only [process_cart_updates, hp, if_neg hq, hu]
  · intro iid q db1 hp hq hu
    simp only [process_cart_updates, hp, if_neg hq, hu]

/-- C5 witness: the amended theorem applied to concrete inputs — a
failing first entry commits nothing, and a successful entry passes the
committed store on to the rest of the list. -/
theorem process_entry_fail_fast_witness :
    process_cart_updates c5Db 1
        [RawItem.mk (some (PyLit.int 2)) (some (PyLit.str (pys "x")))] =
      (c5Db, some (pys "Invalid input: invalid literal for int()")) ∧
    process_cart_updates c5Db 1 c5Items =
      process_cart_updates [Item.mk 1 1 (pys "a") 7 (Dec.mk 100 2) 0 0,
        Item.mk 1 2 (pys "b") 5 (Dec.mk 100 2) 0 0] 1
        [RawItem.mk (some (PyLit.int 2)) (some (PyLit.str (pys "x")))] := by
  constructor
  · exact (process_entry_fail_fast c5Db 1
      (RawItem.mk (some (PyLit.int 2)) (some (PyLit.str (pys "x")))) []).1
      (pys "Invalid input: invalid literal for int()") rfl
  · exact (process_entry_fail_fast c5Db 1
      (RawItem.mk (some (PyLit.int 1)) (some (PyLit.int 7)))
      [RawItem.mk (some (PyLit.int 2)) (some (PyLit.str (pys "x")))]).2.2.2
      1 7 [Item.mk 1 1 (pys "a") 7 (Dec.mk 100 2) 0 0,
        Item.mk 1 2 (pys "b") 5 (Dec.mk 100 2) 0 0] rfl (by omega) (by rfl)

theorem splitOn_marker_cons (rest : List Char) :
    List.splitOn '~' ('~' :: rest) = [] :: List.splitOn '~' rest := by
  simp [List.splitOn, List.splitOnP_cons]

theorem splitOn_no_marker_append (op rest : List Char) (hop : '~' ∉ op) :
    List.splitOn '~' (op ++ '~' :: rest) = op :: List.splitOn '~' rest := by
  induction op with
  | nil => simpa using splitOn_marker_cons rest
  | cons c cs ih =>
    have hc : c ≠ '~' := fun h => hop (h ▸ List.mem_cons_self c cs)
    have hcs : '~' ∉ cs := fun h => hop (List.mem_cons_of_mem c h)
    simp only [List.cons_append, List.splitOn, List.splitOnP_cons] at ih ⊢
    rw [if_neg (by simpa using hc)]
    rw [show List.splitOnP (fun a => a == '~') (cs ++ '~' :: rest) =
          cs :: List.splitOn '~' rest from ih hcs]
    rfl

/-! ## C6 -/

/-- C6: the operator parser returns `(eq, s)` unchanged on any string
not starting with `~`; on `~op~rest` with `op` free of `~` and
lower-casing into the allowed set it returns the lower-cased operator
and `rest` with inner `~`-separated segments rejoined literally; a
string starting with `~` with fewer than three `~`-delimited segments
fails with the invalid-format error; and an operator token outside
`lt, lte, gt, gte` fails with the unsupported-operator error. -/
theorem parse_operator_value_spec :
    (∀ s : PyStr, s.head? ≠ some '~' →
      parse_operator_value s = Except.ok (pys "eq", s)) ∧
    (∀ op rest : PyStr, '~' ∉ op →
      op.map Char.toLower ∈ [pys "lt", pys "lte", pys "gt", pys "gte"] →
      parse_operator_value ('~' :: (op ++ '~' :: rest)) =
        Except.ok (op.map Char.toLower, rest)) ∧
    (∀ s : PyStr, s.head? = some '~' → (s.splitOn '~').length < 3 →
      parse_operator_value s = Except.error (pys "Invalid operator format: " ++ s)) ∧
    (∀ s : PyStr, s.head? = some '~' → 3 ≤ (s.splitOn '~').length →
      (s.splitOn '~')[1]!.map Char.toLower ∉ [pys "lt", pys "lte", pys "gt", pys "gte"] →
      parse_operator_value s =
        Except.error (pys "Unsupported operator: " ++ (s.splitOn '~')[1]!.map Char.toLower)) := by
  refine ⟨?_, ?_, ?_, ?_⟩
  · intro s h
    unfold parse_operator_value
    rw [if_pos h]
  · intro op rest hop hmem
    have hsplit : List.splitOn '~' ('~' :: (op ++ '~' :: rest)) =
        [] :: op :: List.splitOn '~' rest := by
      rw [splitOn_marker_cons, splitOn_no_marker_append op rest hop]
    unfold parse_operator_value
    rw [if_neg (by simp)]
    simp only [hsplit]
    have hlen : ¬ ([] :: op :: List.splitOn '~' rest).length < 3 := by
      have := List.splitOnP_ne_nil (fun a => a == '~') rest
      have : (List.splitOn '~' rest).length ≥ 1 := by
        cases h : List.splitOn '~' rest with
        | nil => exact absurd h (by simpa [List.splitOn] using this)
        | cons a l => simp
      simp only [List.length_cons]
      omega
    rw [if_neg hlen]
    have hget : ([] :: op :: List.splitOn '~' rest)[1]! = op := by simp
    have hdrop : ([] :: op :: List.splitOn '~' rest).drop 2 = List.splitOn '~' rest := rfl
    rw [hget, hdrop, List.intercalate_splitOn]
    rw [if_pos (by simpa using hmem)]
  · intro s hh hlen
    unfold parse_operator_value
    rw [if_neg (by simp [hh]), if_pos hlen]
  · intro s hh hlen hmem
    unfold parse_operator_value
    rw [if_neg (by simp [hh]), if_neg (by omega), if_neg (by simpa using hmem)]

/-- C6 witness: the theorem applied to the spec's concrete examples,
including a mixed-case operator and an operand containing `~`. -/
theorem parse_operator_value_spec_witness :
    parse_operator_value (pys "5") = Except.ok (pys "eq", pys "5") ∧
    parse_operator_value (pys "~gt~5") = Except.ok (pys "gt", pys "5") ∧
    parse_operator_value (pys "~Gte~a~b") = Except.ok (pys "gte", pys "a~b") ∧
    parse_operator_value (pys "~x") =
      Except.error (pys "Invalid operator format: " ++ pys "~x") ∧
    parse_operator_value (pys "~xx~5") =
      Except.error (pys "Unsupported operator: " ++ pys "xx") := by
  have t := parse_operator_value_spec
  refine ⟨t.1 (pys "5") (by decide), ?_, ?_,
    t.2.2.1 (pys "~x") (by decide) (by decide), ?_⟩
  · have h := t.2.1 (pys "gt") (pys "5") (by decide) (by decide)
    have e1 : ('~' :: ((pys "gt") ++ '~' :: (pys "5"))) = pys "~gt~5" := by decide
    have e2 : (pys "gt").map Char.toLower = pys "gt" := by decide
    rw [e1, e2] at h
    exact h
  · have h := t.2.1 (pys "Gte") (pys "a~b") (by decide) (by decide)
    have e1 : ('~' :: ((pys "Gte") ++ '~' :: (pys "a~b"))) = pys "~Gte~a~b" := by decide
    have e2 : (pys "Gte").map Char.toLower = pys "gte" := by decide
    rw [e1, e2] at h
    exact h
  · have h := t.2.2.2 (pys "~xx~5") (by decide) (by decide) (by decide)
    have e : (((pys "~xx~5").splitOn '~')[1]!).map Char.toLower = pys "xx" := by decide
    rw [e] at h
    exact h

theorem extractFieldsLoop_in_lookup (args : List (PyStr × PyStr)) (field v : PyStr)
    (hv : getArg args field = some v) (hc : ',' ∈ v) :
    ∀ (fs : List PyStr) (m : List (PyStr × QFilter)), field ∈ fs →
      extractFieldsLoop args fs = Except.ok m →
      getFilter m field = some (QFilter.mk (pys "in") (FVal.l (v.splitOn ','))) := by
  intro fs
  induction fs with
  | nil => intro m hmem _; exact absurd hmem (by simp)
  | cons g gs ih =>
    intro m hmem hok
    by_cases hg : g = field
    · subst hg
      simp only [extractFieldsLoop, hv, if_pos hc] at hok
      cases hrec : extractFieldsLoop args gs with
      | error e => rw [hrec] at hok; exact absurd hok (by simp)
      | ok tail =>
        rw [hrec] at hok
        have hm : m = (g, QFilter.mk (pys "in") (FVal.l (v.splitOn ','))) :: tail := by
          simpa using hok.symm
        rw [hm]
        unfold getFilter
        rw [List.find?_cons_of_pos _ (by simp)]
        rfl
    · have hmem' : field ∈ gs := by
        rcases List.mem_cons.mp hmem with h | h
        · exact absurd h.symm hg
        · exact h
      have step : ∀ filt tail, m = (g, filt) :: tail →
          extractFieldsLoop args gs = Except.ok tail →
          getFilter m field = some (QFilter.mk (pys "in") (FVal.l (v.splitOn ','))) := by
        intro filt tail hm hrec
        rw [hm]
        unfold getFilter
        rw [List.find?_cons_of_neg _ (by simp [hg])]
        exact ih tail hmem' hrec
      cases harg : getArg args g with
      | none =>
        simp only [extractFieldsLoop, harg] at hok
        exact ih m hmem' hok
      | some w =>
        simp only [extractFieldsLoop, harg] at hok
        by_cases hcw : ',' ∈ w
        · rw [if_pos hcw] at hok
          cases hrec : extractFieldsLoop args gs with
          | error e => rw [hrec] at hok; exact absurd hok (by simp)
          | ok tail =>
            rw [hrec] at hok
            exact step _ tail (by simpa using hok.symm) hrec
        · rw [if_neg hcw] at hok
          cases hparse : parse_operator_value w with
          | error e => rw [hparse] at hok; exact absurd hok (by simp)
          | ok ov =>
            rw [hparse] at hok
            cases hrec : extractFieldsLoop args gs with
            | error e => rw [hrec] at hok; exact absurd hok (by simp)
            | ok tail =>
              rw [hrec] at hok
              exact step _ tail (by simpa using hok.symm) hrec

/-- C9 counterexample: on the request `price=1 , 2` the extractor
produces the comma-split values verbatim, which differ from the
split-and-trimmed values the claim asserts. -/
theorem extract_in_filter_untrimmed_cex :
    extract_item_filters [(pys "price", pys "1 , 2")] =
      Except.ok [(pys "price", QFilter.mk (pys "in") (FVal.l [pys "1 ", pys " 2"]))] ∧
    FVal.l [pys "1 ", pys " 2"] ≠
      FVal.l (((pys "1 , 2").splitOn ',').map trimStr) := ⟨rfl, by decide⟩

/-- C9 (amended): for every filterable field whose query value contains
a comma, the extractor emits the `in` filter over the value split on
commas with each element kept verbatim (no whitespace trimming). -/
theorem extract_in_filter_amended (args : List (PyStr × PyStr)) (field v : PyStr)
    (m : List (PyStr × QFilter)) :
    field ∈ filter_fields → getArg args field = some v → ',' ∈ v →
    extract_item_filters args = Except.ok m →
    getFilter m field = some (QFilter.mk (pys "in") (FVal.l (v.splitOn ','))) := by
  intro hmem hv hc hok
  exact extractFieldsLoop_in_lookup args field v hv hc filter_fields m hmem hok

/-- C9 witness: the amended theorem applied to the concrete request
`user_id=3 ,4`. -/
theorem extract_in_filter_amended_witness :
    getFilter [(pys "user_id", QFilter.mk (pys "in") (FVal.l [pys "3 ", pys "4"]))]
        (pys "user_id") =
      some (QFilter.mk (pys "in") (FVal.l ((pys "3 ,4").splitOn ','))) := by
  exact extract_in_filter_amended [(pys "user_id", pys "3 ,4")] (pys "user_id")
    (pys "3 ,4") [(pys "user_id", QFilter.mk (pys "in") (FVal.l [pys "3 ", pys "4"]))]
    (by decide) (by decide) (by decide) rfl

/-! ## C3 and C4 -/

/-- C3: supplying a price filter through `price` or `price_range`
together with either `min-price` or `max-price` in one request makes
filter extraction fail with the conflict error naming the conflicting
parameters, regardless of the parameter values. -/
theorem price_minmax_conflict (args : List (PyStr × PyStr)) :
    ((getArg args (pys "price")).isSome = true ∨
      (getArg args (pys "price_range")).isSome = true) →
    ((getArg args (pys "min-price")).isSome = true ∨
      (getArg args (pys "max-price")).isSome = true) →
    extract_item_filters_spec args = Except.error errPriceConflict := by
  intro h1 h2
  unfold extract_item_filters_spec
  rw [if_pos (show conflictingPriceParams args = true by
    unfold conflictingPriceParams
    rcases h1 with h | h <;> rcases h2 with h' | h' <;> simp [h, h'])]

/-- C3 witness: the theorem applied to the spec's example request
`price=~gte~40&min-price=30`. -/
theorem price_minmax_conflict_witness :
    extract_item_filters_spec [(pys "price", pys "~gte~40"), (pys "min-price", pys "30")] =
      Except.error errPriceConflict :=
  price_minmax_conflict [(pys "price", pys "~gte~40"), (pys "min-price", pys "30")]
    (Or.inl (by decide)) (Or.inl (by decide))

theorem specLoop_range_bad_error (args : List (PyStr × PyStr)) (field v : PyStr)
    (hv : getArg args (field ++ pys "_range") = some v)
    (hbad : (v.splitOn ',').length ≠ 2) :
    ∀ fs : List PyStr, field ∈ fs → ∃ e, specFieldsLoop args fs = Except.error e := by
  intro fs
  induction fs with
  | nil => intro hmem; exact absurd hmem (by simp)
  | cons g gs ih =>
    intro hmem
    by_cases hg : g = field
    · subst hg
      refine ⟨errRangeFormat g, ?_⟩
      simp only [specFieldsLoop, hv, if_pos hbad]
    · have hmem' : field ∈ gs := by
        rcases List.mem_cons.mp hmem with h | h
        · exact absurd h.symm hg
        · exact h
      obtain ⟨e, he⟩ := ih hmem'
      cases hr : getArg args (g ++ pys "_range") with
      | some w =>
        by_cases hw : (w.splitOn ',').length ≠ 2
        · exact ⟨errRangeFormat g, by simp only [specFieldsLoop, hr, if_pos hw]⟩
        · exact ⟨e, by simp only [specFieldsLoop, hr, if_neg hw, he]⟩
      | none =>
        cases ha : getArg args g with
        | none => exact ⟨e, by simp only [specFieldsLoop, hr, ha, he]⟩
        | some w =>
          by_cases hcw : ',' ∈ w
          · exact ⟨e, by simp only [specFieldsLoop, hr, ha, if_pos hcw, he]⟩
          · cases hp : parse_operator_value w with
            | error e2 =>
              exact ⟨pys "Error parsing filter for " ++ g ++ pys ": " ++ e2,
                by simp only [specFieldsLoop, hr, ha, if_neg hcw, hp]⟩
            | ok ov =>
              exact ⟨e, by simp only [specFieldsLoop, hr, ha, if_neg hcw, hp, he]⟩

theorem specLoop_range_bad_first (args : List (PyStr × PyStr)) (field v : PyStr)
    (hv : getArg args (field ++ pys "_range") = some v)
    (hbad : (v.splitOn ',').length ≠ 2) :
    ∀ fs : List PyStr, field ∈ fs →
      (∀ g ∈ fs, g ≠ field → getArg args (g ++ pys "_range") = none ∧ getArg args g = none) →
      specFieldsLoop args fs = Except.error (errRangeFormat field) := by
  intro fs
  induction fs with
  | nil => intro hmem _; exact absurd hmem (by simp)
  | cons g gs ih =>
    intro hmem hnone
    by_cases hg : g = field
    · subst hg
      simp only [specFieldsLoop, hv, if_pos hbad]
    · have hmem' : field ∈ gs := by
        rcases List.mem_cons.mp hmem with h | h
        · exact absurd h.symm hg
        · exact h
      obtain ⟨hr, ha⟩ := hnone g (List.mem_cons_self g gs) hg
      have htail := ih hmem' fun g2 hg2 => hnone g2 (List.mem_cons_of_mem g hg2)
      simp only [specFieldsLoop, hr, ha, htail]

theorem specLoop_range_lookup (args : List (PyStr × PyStr)) (field v : PyStr)
    (hv : getArg args (field ++ pys "_range") = some v) :
    ∀ (fs : List PyStr) (m : List (PyStr × QFilter)), field ∈ fs →
      specFieldsLoop args fs = Except.ok m →
      getFilter m field = some (QFilter.mk (pys "range") (FVal.l (v.splitOn ','))) := by
  intro fs
  induction fs with
  | nil => intro m hmem _; exact absurd hmem (by simp)
  | cons g gs ih =>
    intro m hmem hok
    by_cases hg : g = field
    · subst hg
      by_cases hbad : (v.splitOn ',').length ≠ 2
      · simp only [specFieldsLoop, hv, if_pos hbad] at hok
        exact absurd hok (by simp)
      · simp only [specFieldsLoop, hv, if_neg hbad] at hok
        cases hrec : specFieldsLoop args gs with
        | error e => rw [hrec] at hok; exact absurd hok (by simp)
        | ok tail =>
          rw [hrec] at hok
          have hm : m = (g, QFilter.mk (pys "range") (FVal.l (v.splitOn ','))) :: tail := by
            simpa using hok.symm
          rw [hm]
          unfold getFilter
          rw [List.find?_cons_of_pos _ (by simp)]
          rfl
    · have hmem' : field ∈ gs := by
        rcases List.mem_cons.mp hmem with h | h
        · exact absurd h.symm hg
        · exact h
      have step : ∀ filt tail, m = (g, filt) :: tail →
          specFieldsLoop args gs = Except.ok tail →
          getFilter m field = some (QFilter.mk (pys "range") (FVal.l (v.splitOn ','))) := by
        intro filt tail hm hrec
        rw [hm]
        unfold getFilter
        rw [List.find?_cons_of_neg _ (by simp [hg])]
        exact ih tail hmem' hrec
      cases hr : getArg args (g ++ pys "_range") with
      | some w =>
        by_cases hw : (w.splitOn ',').length ≠ 2
        · simp only [specFieldsLoop, hr, if_pos hw] at hok
          exact absurd hok (by simp)
        · simp only [specFieldsLoop, hr, if_neg hw] at hok
          cases hrec : specFieldsLoop args gs with
          | error e => rw [hrec] at hok; exact absurd hok (by simp)
          | ok tail =>
            rw [hrec] at hok
            exact step _ tail (by simpa using hok.symm) hrec
      | none =>
        cases ha : getArg args g with
        | none =>
          simp only [specFieldsLoop, hr, ha] at hok
          exact ih m hmem' hok
        | some w =>
          simp only [specFieldsLoop, hr, ha] at hok
          by_cases hcw : ',' ∈ w
          · rw [if_pos hcw] at hok
            cases hrec : specFieldsLoop args gs with
            | error e => rw [hrec] at hok; exact absurd hok (by simp)
            | ok tail =>
              rw [hrec] at hok
              exact step _ tail (by simpa using hok.symm) hrec
          · rw [if_neg hcw] at hok
            cases hp : parse_operator_value w with
            | error e2 => rw [hp] at hok; exact absurd hok (by simp)
            | ok ov =>
              rw [hp] at hok
              cases hrec : specFieldsLoop args gs with
              | error e => rw [hrec] at hok; exact absurd hok (by simp)
              | ok tail =>
                rw [hrec] at hok
                exact step _ tail (by simpa using hok.symm) hrec

theorem getFilter_append_left {base : List (PyStr × QFilter)} {field : PyStr}
    {filt : QFilter} (extra : List (PyStr × QFilter))
    (h : getFilter base field = some filt) :
    getFilter (base ++ extra) field = some filt := by
  unfold getFilter at h ⊢
  rw [List.find?_append]
  cases hfind : base.find? fun kv => kv.1 == field with
  | none => rw [hfind] at h; exact absurd h (by simp)
  | some kv => rw [hfind] at h; simpa using h

/-- C4: for every filterable field `F` with an `F_range` query
parameter, extraction splits the value on comma and fails whenever
there are not exactly two parts (with the range-format error naming the
field when that parameter is the only one supplied); with exactly two
parts every successful extraction maps `F` to the normalized filter
`{operator: range, value: [lo, hi]}` with the two parts kept as raw
strings. -/
theorem range_param_extraction (args : List (PyStr × PyStr)) (field v : PyStr) :
    field ∈ filter_fields → getArg args (field ++ pys "_range") = some v →
    ((v.splitOn ',').length ≠ 2 → ∃ e, extract_item_filters_spec args = Except.error e) ∧
    ((v.splitOn ',').length ≠ 2 →
      (∀ g ∈ filter_fields, g ≠ field →
        getArg args (g ++ pys "_range") = none ∧ getArg args g = none) →
      conflictingPriceParams args = false →
      extract_item_filters_spec args = Except.error (errRangeFormat field)) ∧
    (∀ m, extract_item_filters_spec args = Except.ok m →
      (v.splitOn ',').length = 2 ∧
      getFilter m field = some (QFilter.mk (pys "range") (FVal.l (v.splitOn ',')))) := by
  intro hmem hv
  have herr : (v.splitOn ',').length ≠ 2 →
      ∃ e, extract_item_filters_spec args = Except.error e := by
    intro hbad
    unfold extract_item_filters_spec
    by_cases hc : conflictingPriceParams args = true
    · rw [if_pos hc]
      exact ⟨errPriceConflict, rfl⟩
    · rw [if_neg hc]
      obtain ⟨e, he⟩ := specLoop_range_bad_error args field v hv hbad filter_fields hmem
      rw [he]
      exact ⟨e, rfl⟩
  refine ⟨herr, ?_, ?_⟩
  · intro hbad hnone hnc
    unfold extract_item_filters_spec
    rw [if_neg (by simp [hnc])]
    rw [specLoop_range_bad_first args field v hv hbad filter_fields hmem hnone]
  intro m hok
  have hlen : (v.splitOn ',').length = 2 := by
    by_contra hbad
    obtain ⟨e, he⟩ := herr hbad
    rw [he] at hok
    exact absurd hok (by simp)
  refine ⟨hlen, ?_⟩
  unfold extract_item_filters_spec at hok
  by_cases hc : conflictingPriceParams args = true
  · rw [if_pos hc] at hok
    exact absurd hok (by simp)
  · rw [if_neg hc] at hok
    cases hbase : specFieldsLoop args filter_fields with
    | error e => rw [hbase] at hok; exact absurd hok (by simp)
    | ok base =>
      rw [hbase] at hok
      have hlook := specLoop_range_lookup args field v hv filter_fields base hmem hbase
      cases hmin : getArg args (pys "min-price") with
      | none =>
        cases hmax : getArg args (pys "max-price") with
        | none =>
          rw [hmin, hmax] at hok
          have hm : m = base := by simpa using hok.symm
          rw [hm]
          exact hlook
        | some hi =>
          rw [hmin, hmax] at hok
          have hm : m = base ++ [(pys "price", QFilter.mk (pys "lte") (FVal.s hi))] := by
            simpa using hok.symm
          rw [hm]
          exact getFilter_append_left _ hlook
      | some lo =>
        cases hmax : getArg args (pys "max-price") with
        | none =>
          rw [hmin, hmax] at hok
          have hm : m = base ++ [(pys "price", QFilter.mk (pys "gte") (FVal.s lo))] := by
            simpa using hok.symm
          rw [hm]
          exact getFilter_append_left _ hlook
        | some hi =>
          rw [hmin, hmax] at hok
          have hm : m = base ++ [(pys "price", QFilter.mk (pys "range") (FVal.l [lo, hi]))] := by
            simpa using hok.symm
          rw [hm]
          exact getFilter_append_left _ hlook

/-- C4 witness: the theorem applied to the concrete requests
`price_range=10,50` (two parts, extracted as a raw-string range) and
`quantity_range=10` (one part, extraction fails). -/
theorem range_param_extraction_witness :
    getFilter [(pys "price", QFilter.mk (pys "range") (FVal.l [pys "10", pys "50"]))]
        (pys "price") =
      some (QFilter.mk (pys "range") (FVal.l ((pys "10,50").splitOn ','))) ∧
    extract_item_filters_spec [(pys "quantity" ++ pys "_range", pys "10")] =
      Except.error (errRangeFormat (pys "quantity")) := by
  constructor
  · exact ((range_param_extraction [(pys "price" ++ pys "_range", pys "10,50")]
      (pys "price") (pys "10,50") (by decide) rfl).2.2
      [(pys "price", QFilter.mk (pys "range") (FVal.l [pys "10", pys "50"]))] rfl).2
  · exact (range_param_extraction [(pys "quantity" ++ pys "_range", pys "10")]
      (pys "quantity") (pys "10") (by decide) rfl).2.1 (by decide) (by decide) (by decide)

/-! ## C10 -/

theorem evalCond_gte (x : Item) (field : PyStr) (v xv : Val)
    (h : attrVal x field = some xv) :
    evalCond x (Cond.mk field (pys "gte") (CVal.one v)) = valLeB v xv := by
  simp only [evalCond, h]
  rfl

theorem evalCond_lte (x : Item) (field : PyStr) (v xv : Val)
    (h : attrVal x field = some xv) :
    evalCond x (Cond.mk field (pys "lte") (CVal.one v)) = valLeB xv v := by
  simp only [evalCond, h]
  rfl

/-- C10: for a range filter on any field, once the two bounds have been
type-coerced, building the predicate fails with the range-order error
exactly when lo > hi, and otherwise yields the two inclusive bound
conditions whose conjunction holds of a row iff lo ≤ field-value ≤ hi. -/
theorem range_condition_build (field lo hi : PyStr) (a b : Val) :
    type_convert field lo = Except.ok a → type_convert field hi = Except.ok b →
    (valGtB a b = true →
      buildConds field (QFilter.mk (pys "range") (FVal.l [lo, hi])) =
        Except.error (errRangeOrder field)) ∧
    (valGtB a b = false →
      buildConds field (QFilter.mk (pys "range") (FVal.l [lo, hi])) =
        Except.ok [Cond.mk field (pys "gte") (CVal.one a),
          Cond.mk field (pys "lte") (CVal.one b)] ∧
      (∀ (x : Item) (xv : Val), attrVal x field = some xv →
        (condsHold x [Cond.mk field (pys "gte") (CVal.one a),
            Cond.mk field (pys "lte") (CVal.one b)] = true ↔
          (valLeB a xv = true ∧ valLeB xv b = true)))) := by
  intro hla hlb
  have hmap : List.mapM (type_convert field) [lo, hi] = Except.ok [a, b] := by
    simp [List.mapM, List.mapM.loop, hla, hlb]
    rfl
  have hconv : convertValue field (FVal.l [lo, hi]) = Except.ok (CVal.many [a, b]) := by
    simp only [convertValue, hmap]
  constructor
  · intro hg
    simp only [buildConds, hconv]
    rw [if_neg (by decide), if_neg (by decide), if_pos (by decide)]
    simp only [hg, if_pos]
  · intro hg
    constructor
    · simp only [buildConds, hconv]
      rw [if_neg (by decide), if_neg (by decide), if_pos (by decide)]
      simp [hg]
    · intro x xv hattr
      simp only [condsHold, List.all_cons, List.all_nil,
        evalCond_gte x field a xv hattr, evalCond_lte x field b xv hattr]
      simp [Bool.and_eq_true]

/-- A row with unit price 25, inside the example range. -/
def x25 : Item := Item.mk 1 1 (pys "") 1 (Dec.mk 25 0) 0 0

/-- A row with unit price 10, on the boundary of the example range. -/
def x10 : Item := Item.mk 1 2 (pys "") 1 (Dec.mk 10 0) 0 0

/-- A row with unit price 90, outside the example range. -/
def x90 : Item := Item.mk 1 3 (pys "") 1 (Dec.mk 90 0) 0 0

/-- C10 witness: the theorem applied to the price field — the range
`50,10` fails with the range-order error, the range `10,50` builds the
two inclusive bounds, which hold of prices 25 and 10 (boundary
included) and fail of price 90. -/
theorem range_condition_build_witness :
    buildConds (pys "price") (QFilter.mk (pys "range") (FVal.l [pys "50", pys "10"])) =
      Except.error (errRangeOrder (pys "price")) ∧
    buildConds (pys "price") (QFilter.mk (pys "range") (FVal.l [pys "10", pys "50"])) =
      Except.ok [Cond.mk (pys "price") (pys "gte") (CVal.one (Val.d (Dec.mk 10 0))),
        Cond.mk (pys "price") (pys "lte") (CVal.one (Val.d (Dec.mk 50 0)))] ∧
    condsHold x25 [Cond.mk (pys "price") (pys "gte") (CVal.one (Val.d (Dec.mk 10 0))),
      Cond.mk (pys "price") (pys "lte") (CVal.one (Val.d (Dec.mk 50 0)))] = true ∧
    condsHold x10 [Cond.mk (pys "price") (pys "gte") (CVal.one (Val.d (Dec.mk 10 0))),
      Cond.mk (pys "price") (pys "lte") (CVal.one (Val.d (Dec.mk 50 0)))] = true ∧
    condsHold x90 [Cond.mk (pys "price") (pys "gte") (CVal.one (Val.d (Dec.mk 10 0))),
      Cond.mk (pys "price") (pys "lte") (CVal.one (Val.d (Dec.mk 50 0)))] = false := by
  refine ⟨?_, ?_, by decide, by decide, by decide⟩
  · exact (range_condition_build (pys "price") (pys "50") (pys "10")
      (Val.d (Dec.mk 50 0)) (Val.d (Dec.mk 10 0)) rfl rfl).1 (by decide)
  · exact ((range_condition_build (pys "price") (pys "10") (pys "50")
      (Val.d (Dec.mk 10 0)) (Val.d (Dec.mk 50 0)) rfl rfl).2 (by decide)).1
